import Mathlib

/-!
# Verification of the packer-plugin-utm build-step pipeline

Shallow embedding of three build steps of the plugin and of the
`QemuConfig.Prepare` validation, translated from the Go sources:

* `builder/utm/common/step_attach_isos.go`
* `builder/utm/common/step_download_guest_additions.go`
* `builder/utm/common/step_configure_qemu_args.go`
* the `QemuConfig` configuration file (provided unnamed)

External collaborators (the driver, the filesystem path helpers, the
template renderer and the download capability) are modelled as explicit
environment records of functions; each run returns, besides the step
action and the updated shared state, a trace of the driver invocations
the step issued, so that claims about which calls happen and in which
order are statements about the model.
-/

namespace PackerUtm

/-- The `multistep.StepAction` values a step `Run` can return. -/
inductive StepAction where
  | ActionContinue
  | ActionHalt
deriving DecidableEq, Repr

/-- The shared build state (`multistep.StateBag`), restricted to the keys the
embedded steps read or write.  Keys read with `state.Get` (for instance
`iso_path` or `vmId`) are plain fields: the spec declares reading an absent
key a programming error, so presence is assumed.  Keys probed with
`state.GetOk` are `Option` or `Bool` fields. -/
structure StateBag where
  iso_path : String
  cd_path : Option String
  guest_additions_path : String
  vmId : String
  error : Option String := none
  disk_unmount_commands : Option (List (String × List String)) := none
  detached_isos : Bool := false
  userQemuArgs : Option (List String) := none
deriving DecidableEq, Repr

/-! ## Multi-ISO attachment step (`step_attach_isos.go`) -/

/-- The configuration fields of `StepAttachISOs`.  The mutable
`diskUnmountCommands` field of the Go struct is modelled as the `cmds`
component of `AttachRunResult` below and as the explicit argument of
`cleanupAttachISOs`. -/
structure StepAttachISOs where
  AttachBootISO : Bool
  ISOInterface : String
  GuestAdditionsMode : String
  GuestAdditionsInterface : String
deriving DecidableEq, Repr

/-- An ISO to mount, with its category and path (`diskToMount` in the Go). -/
structure diskToMount where
  category : String
  isoPath : String
deriving DecidableEq, Repr

/-- Environment of external capabilities used by `StepAttachISOs`: the
`path/filepath` helpers of the Go standard library, the controller-code
translation `GetControllerEnumCode` (declared outside the provided source
slice; the spec says it translates an interface designation to the driver
controller code and that failure halts), and the driver
`ExecuteOsaScript`. -/
structure AttachEnv where
  isAbs : String → Bool
  abs : String → Except String String
  evalSymlinks : String → Except String String
  getControllerEnumCode : String → Except String String
  driver : List String → Except String String

/-- Modelled from the spec: the guest-additions mode enumeration value
`attach`; the constant declaration lives outside the provided source
slice (spec section 6 gives the enumeration as disabled, upload, attach). -/
def GuestAdditionsModeAttach : String := "attach"

/-- Modelled from the spec: the guest-additions mode enumeration value
`disabled`; the constant declaration lives outside the provided source
slice. -/
def GuestAdditionsModeDisable : String := "disabled"

/-- Modelled from the spec: the guest-additions mode enumeration value
`upload`; the constant declaration lives outside the provided source
slice. -/
def GuestAdditionsModeUpload : String := "upload"

/-- A character of the Go regular-expression class used for UUID
extraction in `step_attach_isos.go`. -/
def isUuidChar (c : Char) : Bool :=
  ('0' ≤ c && c ≤ '9') || ('a' ≤ c && c ≤ 'f') || ('A' ≤ c && c ≤ 'F') ||
  c = '-'

/-- Leftmost match of the Go regular expression on a character list:
the first position from which 36 consecutive characters of the UUID class
follow yields those 36 characters. -/
def findUuidAux : List Char → Option (List Char)
  | [] => none
  | c :: rest =>
    if 36 ≤ (c :: rest).length && ((c :: rest).take 36).all isUuidChar then
      some ((c :: rest).take 36)
    else
      findUuidAux rest

/-- `regexp.MustCompile` on the UUID class followed by
`FindStringSubmatch`: the first UUID-shaped token of the output, when one
exists. -/
def findUuid (s : String) : Option String :=
  (findUuidAux s.data).map fun l => String.mk l

/-- The `switch diskCategory` of `step_attach_isos.go` choosing the
controller name for a category (no default case: an unknown category
leaves the name empty). -/
def controllerNameFor (s : StepAttachISOs) (category : String) : String :=
  if category = "boot_iso" then s.ISOInterface
  else if category = "guest_additions" then s.GuestAdditionsInterface
  else if category = "cd_files" then "usb"
  else ""

/-- The argument list handed to `ExecuteOsaScript` to attach one ISO. -/
def attachCommand (vmId code isoPath : String) : List String :=
  ["attach_iso.applescript", vmId, "--interface", code, "--source", isoPath]

/-- Outcome of processing one candidate disk inside the attach loop:
the driver command that was issued (when the loop reached the driver
call), and either the halting error or the recorded
(category, unmount command) pair. -/
structure AttachOneResult where
  call : Option (List String)
  result : Except String (String × List String)

/-- One iteration of the attach loop of `StepAttachISOs.Run`: resolve the
symlink, translate the controller name, invoke the driver, extract the
UUID and build the reversal command. -/
def attachOne (s : StepAttachISOs) (env : AttachEnv) (vmId : String)
    (disk : diskToMount) : AttachOneResult :=
  match env.evalSymlinks disk.isoPath with
  | .error e => ⟨none, .error ("error resolving symlink for ISO: " ++ e)⟩
  | .ok resolved =>
    match env.getControllerEnumCode (controllerNameFor s disk.category) with
    | .error e => ⟨none, .error e⟩
    | .ok code =>
      match env.driver (attachCommand vmId code resolved) with
      | .error e =>
        ⟨some (attachCommand vmId code resolved),
          .error ("error attaching ISO: " ++ e)⟩
      | .ok output =>
        match findUuid output with
        | some uuid =>
          ⟨some (attachCommand vmId code resolved),
            .ok (disk.category, ["remove_drive.applescript", vmId, uuid])⟩
        | none =>
          ⟨some (attachCommand vmId code resolved),
            .error ("error extracting UUID from output: " ++ output)⟩

/-- Assignment into the Go map `s.diskUnmountCommands[k] = v`, as an
association list: overwrite the entry for `k` when present, append
otherwise. -/
def putAssoc (m : List (String × List String)) (k : String)
    (v : List String) : List (String × List String) :=
  if (m.lookup k).isSome then
    m.map (fun p => if p.1 = k then (k, v) else p)
  else m ++ [(k, v)]

/-- State of the attach loop when it stops: the halting error when one
occurred, the accumulated unmount-command table, and the trace of driver
attach invocations, each paired with the category being processed. -/
structure LoopResult where
  err : Option String
  cmds : List (String × List String)
  trace : List (String × List String)
deriving DecidableEq, Repr

/-- The `for _, disk := range disksToMount` loop of `StepAttachISOs.Run`. -/
def attachLoop (s : StepAttachISOs) (env : AttachEnv) (vmId : String) :
    List diskToMount → List (String × List String) →
    List (String × List String) → LoopResult
  | [], cmds, trace => ⟨none, cmds, trace⟩
  | disk :: rest, cmds, trace =>
    let r := attachOne s env vmId disk
    let trace2 := trace ++
      (match r.call with
       | some c => [(disk.category, c)]
       | none => [])
    match r.result with
    | .error e => ⟨some e, cmds, trace2⟩
    | .ok (cat, unmount) =>
      attachLoop s env vmId rest (putAssoc cmds cat unmount) trace2

/-- The boot-ISO candidate of `StepAttachISOs.Run` (lines 50 to 67):
present only when `AttachBootISO` is set, normalized to an absolute
path. -/
def bootDisk (s : StepAttachISOs) (env : AttachEnv) (st : StateBag) :
    Except String (List diskToMount) :=
  if s.AttachBootISO then
    if !env.isAbs st.iso_path then
      match env.abs st.iso_path with
      | .error e => .error ("error converting iso_path to absolute path: " ++ e)
      | .ok a => .ok [⟨"boot_iso", a⟩]
    else .ok [⟨"boot_iso", st.iso_path⟩]
  else .ok []

/-- The cd_files candidate of `StepAttachISOs.Run` (lines 71 to 88):
present only when the `cd_path` key is in state. -/
def cdDisk (env : AttachEnv) (st : StateBag) :
    Except String (List diskToMount) :=
  match st.cd_path with
  | none => .ok []
  | some cdFilesPath =>
    if !env.isAbs cdFilesPath then
      match env.abs cdFilesPath with
      | .error e => .error ("error converting cd_path to absolute path: " ++ e)
      | .ok a => .ok [⟨"cd_files", a⟩]
    else .ok [⟨"cd_files", cdFilesPath⟩]

/-- The guest-additions candidate of `StepAttachISOs.Run` (lines 92 to
112): present only when the mode is `attach`. -/
def gaDisk (s : StepAttachISOs) (env : AttachEnv) (st : StateBag) :
    Except String (List diskToMount) :=
  if s.GuestAdditionsMode = GuestAdditionsModeAttach then
    if !env.isAbs st.guest_additions_path then
      match env.abs st.guest_additions_path with
      | .error e =>
        .error ("error converting guest_additions_path to absolute path: " ++ e)
      | .ok a => .ok [⟨"guest_additions", a⟩]
    else .ok [⟨"guest_additions", st.guest_additions_path⟩]
  else .ok []

/-- The candidate list built by `StepAttachISOs.Run` before the attach
loop, in the fixed order boot_iso, cd_files, guest_additions. -/
def buildDisksToMount (s : StepAttachISOs) (env : AttachEnv) (st : StateBag) :
    Except String (List diskToMount) :=
  match bootDisk s env st with
  | .error e => .error e
  | .ok l1 =>
    match cdDisk env st with
    | .error e => .error e
    | .ok l2 =>
      match gaDisk s env st with
      | .error e => .error e
      | .ok l3 => .ok (l1 ++ l2 ++ l3)

/-- Result of `StepAttachISOs.Run`: the returned action, the shared state
after the run, the value of the private `diskUnmountCommands` field after
the run, and the trace of driver attach invocations paired with their
category. -/
structure AttachRunResult where
  action : StepAction
  st : StateBag
  cmds : List (String × List String)
  trace : List (String × List String)
deriving DecidableEq, Repr

/-- `StepAttachISOs.Run`: build the candidate list, continue when it is
empty, otherwise run the attach loop; on a loop error put the error in
state and halt, otherwise publish the unmount-command table under
`disk_unmount_commands` and continue. -/
def runAttachISOs (s : StepAttachISOs) (env : AttachEnv) (st : StateBag) :
    AttachRunResult :=
  match buildDisksToMount s env st with
  | .error e => ⟨.ActionHalt, { st with error := some e }, [], []⟩
  | .ok disks =>
    if disks.length = 0 then ⟨.ActionContinue, st, [], []⟩
    else
      let r := attachLoop s env st.vmId disks [] []
      match r.err with
      | some e => ⟨.ActionHalt, { st with error := some e }, r.cmds, r.trace⟩
      | none =>
        ⟨.ActionContinue, { st with disk_unmount_commands := some r.cmds },
          r.cmds, r.trace⟩

/-- `StepAttachISOs.Cleanup`: no driver call when no unmount command was
recorded or when the `detached_isos` marker is in state; otherwise one
driver call per recorded entry, whose results are discarded (logged, never
escalated), leaving the state untouched.  The returned list pairs each
issued command with the driver result for it. -/
def cleanupAttachISOs (cmds : List (String × List String)) (env : AttachEnv)
    (st : StateBag) : List (List String × Except String String) × StateBag :=
  if cmds.length = 0 then ([], st)
  else if st.detached_isos then ([], st)
  else (cmds.map (fun p => (p.2, env.driver p.2)), st)

/-- Specification-side definition, following the wording of the spec: the
media categories applicable to a run, in the required order boot image,
then supplemental files, then guest tools. -/
def applicableCategories (s : StepAttachISOs) (st : StateBag) : List String :=
  (if s.AttachBootISO then ["boot_iso"] else []) ++
  (if st.cd_path.isSome then ["cd_files"] else []) ++
  (if s.GuestAdditionsMode = GuestAdditionsModeAttach then ["guest_additions"] else [])

/-! ## Guest-additions download step (`step_download_guest_additions.go`) -/

/-- The UTM version to guest-additions version map of
`step_download_guest_additions.go`. -/
def additionsVersionMap : List (String × String) := [("4.6.4", "0.229.2")]

/-- The remap of lines 57 to 60: substitute the mapped guest-additions
version when the reported version is in the table. -/
def remapVersion (v : String) : String :=
  match additionsVersionMap.lookup v with
  | some v2 => v2
  | none => v

/-- `fmt.Sprintf` of line 62: the fixed default guest-tools file name. -/
def additionsName : String := "utm-guest-tools-" ++ "latest" ++ ".iso"

/-- The configuration fields of `StepDownloadGuestAdditions`. -/
structure StepDownloadGuestAdditions where
  GuestAdditionsMode : String
  GuestAdditionsURL : String
  GuestAdditionsSHA256 : String
  GuestAdditionsTargetPath : String
deriving DecidableEq, Repr

/-- The fields of the `commonsteps.StepDownload` value the step delegates
the fetch to (the fetch capability of the spec). -/
structure StepDownloadCall where
  Checksum : String
  Description : String
  ResultKey : String
  TargetPath : String
  Url : List String
  Extension : String
deriving DecidableEq, Repr

/-- Environment of external capabilities used by
`StepDownloadGuestAdditions`: `driver.Version`,
`driver.GuestToolsIsoPath`, the template renderer `interpolate.Render`
applied to the URL template and the resolved version, and the action the
delegated `commonsteps.StepDownload.Run` returns for a given call. -/
structure DownloadEnv where
  version : Except String String
  guestToolsIsoPath : Except String String
  render : String → String → Except String String
  fetchRun : StepDownloadCall → StepAction

/-- Result of `StepDownloadGuestAdditions.Run`: the returned action, the
shared state after the run, whether `driver.Version` and
`driver.GuestToolsIsoPath` were queried, and the delegated download call
when one was made. -/
structure DlResult where
  action : StepAction
  st : StateBag
  versionQueried : Bool
  toolsPathQueried : Bool
  fetch : Option StepDownloadCall

/-- `StepDownloadGuestAdditions.Run`: continue at once when the mode is
disabled; query the driver version (halting on failure); remap the
version; render the URL template (halting on failure); when the rendered
URL is empty fall back to the driver default path or, when that fails, to
the fixed vendor URL; halt when the URL is still empty; resolve the
checksum policy; delegate the fetch. -/
def runDownloadGuestAdditions (s : StepDownloadGuestAdditions)
    (env : DownloadEnv) (st : StateBag) : DlResult :=
  if s.GuestAdditionsMode = GuestAdditionsModeDisable then
    ⟨.ActionContinue, st, false, false, none⟩
  else
    match env.version with
    | .error e =>
      ⟨.ActionHalt,
        { st with
            error := some ("error reading version for guest additions download: " ++ e) },
        true, false, none⟩
    | .ok v0 =>
      let version := remapVersion v0
      match env.render s.GuestAdditionsURL version with
      | .error e =>
        ⟨.ActionHalt,
          { st with error := some ("error preparing guest additions url: " ++ e) },
          true, false, none⟩
      | .ok url0 =>
        let step2 : String × String × Bool :=
          if url0 = "" then
            match env.guestToolsIsoPath with
            | .ok p => (p, "none", true)
            | .error _ => ("https://getutm.app/downloads/" ++ additionsName, "sha256", true)
          else (url0, "sha256", false)
        match step2 with
        | (url, checksumType0, queried) =>
          if url = "" then
            ⟨.ActionHalt,
              { st with
                  error := some ("couldn\x27t detect guest additions URL.\nPlease specify `guest_additions_url` manually") },
              true, queried, none⟩
          else
            let cs : String × String :=
              if checksumType0 ≠ "none" then
                if s.GuestAdditionsSHA256 ≠ "" then (checksumType0, s.GuestAdditionsSHA256)
                else ("none", "")
              else (checksumType0, "")
            match cs with
            | (checksumType, checksum) =>
              let checksumWithType :=
                if checksumType ≠ "none" && checksum ≠ "" then
                  checksumType ++ ":" ++ checksum
                else checksum
              let call : StepDownloadCall :=
                ⟨checksumWithType, "Guest additions", "guest_additions_path",
                  s.GuestAdditionsTargetPath, [url], "iso"⟩
              ⟨env.fetchRun call, st, true, queried, some call⟩

/-! ## QEMU-argument configuration step (`step_configure_qemu_args.go`) -/

/-- The configuration field of `StepConfigureQemuArgs`. -/
structure StepConfigureQemuArgs where
  QemuArgs : List (List String)
deriving DecidableEq, Repr

/-- Environment of `StepConfigureQemuArgs`: the driver
`ExecuteOsaScript`. -/
structure QemuEnv where
  driver : List String → Except String String

/-- Result of `StepConfigureQemuArgs.Run`: the returned action, the
shared state after the run, and the trace of driver invocations. -/
structure ConfigResult where
  action : StepAction
  st : StateBag
  trace : List (List String)
deriving DecidableEq, Repr

/-- `StepConfigureQemuArgs.Run`: continue at once on an empty argument
list; otherwise join each inner group with single spaces, invoke the
driver with the fixed command name, the VM identifier, `--args` and the
joined strings, halting with an error in state on driver failure, and on
success publish the joined strings under `userQemuArgs`. -/
def runConfigureQemuArgs (s : StepConfigureQemuArgs) (env : QemuEnv)
    (st : StateBag) : ConfigResult :=
  if s.QemuArgs.length = 0 then ⟨.ActionContinue, st, []⟩
  else
    let qemuArgStrings := s.QemuArgs.map (fun args => String.intercalate " " args)
    let cmd := ["add_qemu_additional_args.applescript", st.vmId, "--args"] ++ qemuArgStrings
    match env.driver cmd with
    | .error e =>
      ⟨.ActionHalt,
        { st with error := some ("error adding user QEMU additional arguments: " ++ e) },
        [cmd]⟩
    | .ok _ =>
      ⟨.ActionContinue, { st with userQemuArgs := some qemuArgStrings }, [cmd]⟩

/-! ## `QemuConfig.Prepare` -/

/-- `unicode.IsSpace` of the Go standard library on the characters
`strings.TrimSpace` trims: the white-space property characters. -/
def goIsSpace (c : Char) : Bool :=
  c = '\t' || c = '\n' || c = '\x0b' || c = '\x0c' || c = '\r' || c = ' ' ||
  c = '\x85' || c = '\xa0' || c = '\u1680' ||
  ('\u2000' ≤ c && c ≤ '\u200a') ||
  c = '\u2028' || c = '\u2029' || c = '\u202f' || c = '\u205f' || c = '\u3000'

/-- The character list with leading and trailing white space removed. -/
def trimSpaceList (l : List Char) : List Char :=
  ((l.dropWhile goIsSpace).reverse.dropWhile goIsSpace).reverse

/-- `strings.TrimSpace` of the Go standard library. -/
def trimSpace (s : String) : String := String.mk (trimSpaceList s.data)

/-- The QEMU-arguments configuration block. -/
structure QemuConfig where
  QemuArgs : List (List String)
deriving DecidableEq, Repr

/-- The validation loop of `QemuConfig.Prepare`, with the running group
index used in the error messages. -/
def prepareAux : Nat → List (List String) → List String
  | _, [] => []
  | i, args :: rest =>
    if args.length = 0 then
      ("qemuargs[" ++ toString i ++ "]: empty argument list") :: prepareAux (i + 1) rest
    else if trimSpace (String.intercalate " " args) = "" then
      ("qemuargs[" ++ toString i ++ "]: argument resolves to empty string") :: prepareAux (i + 1) rest
    else prepareAux (i + 1) rest

/-- `QemuConfig.Prepare`: one error per group that is empty or whose
space-joined tokens trim to the empty string. -/
def QemuConfig.Prepare (c : QemuConfig) : List String :=
  prepareAux 0 c.QemuArgs

/-! ## Helper lemmas about the attach step -/

lemma bootDisk_categories {s : StepAttachISOs} {env : AttachEnv} {st : StateBag}
    {l : List diskToMount} (h : bootDisk s env st = .ok l) :
    l.map diskToMount.category = if s.AttachBootISO then ["boot_iso"] else [] := by
  unfold bootDisk at h
  split at h
  · split at h
    · split at h
      · exact absurd h (by simp)
      · cases h; simp_all
    · cases h; simp_all
  · cases h; simp_all

lemma cdDisk_categories {env : AttachEnv} {st : StateBag}
    {l : List diskToMount} (h : cdDisk env st = .ok l) :
    l.map diskToMount.category = if st.cd_path.isSome then ["cd_files"] else [] := by
  unfold cdDisk at h
  split at h
  next heq => cases h; simp [heq]
  next cdp heq =>
    rw [heq]
    split at h
    · split at h
      · exact absurd h (by simp)
      · cases h; simp
    · cases h; simp

lemma gaDisk_categories {s : StepAttachISOs} {env : AttachEnv} {st : StateBag}
    {l : List diskToMount} (h : gaDisk s env st = .ok l) :
    l.map diskToMount.category =
      if s.GuestAdditionsMode = GuestAdditionsModeAttach then ["guest_additions"] else [] := by
  unfold gaDisk at h
  split at h
  · split at h
    · split at h
      · exact absurd h (by simp)
      · cases h; simp_all
    · cases h; simp_all
  · cases h; simp_all

/-- The candidate list built by the run carries exactly the applicable
categories, in the fixed boot, cd_files, guest_additions order. -/
lemma buildDisksToMount_categories {s : StepAttachISOs} {env : AttachEnv}
    {st : StateBag} {disks : List diskToMount}
    (h : buildDisksToMount s env st = .ok disks) :
    disks.map diskToMount.category = applicableCategories s st := by
  unfold buildDisksToMount at h
  split at h
  · exact absurd h (by simp)
  next l1 h1 =>
    split at h
    · exact absurd h (by simp)
    next l2 h2 =>
      split at h
      · exact absurd h (by simp)
      next l3 h3 =>
        cases h
        simp only [List.map_append, applicableCategories,
          bootDisk_categories h1, cdDisk_categories h2, gaDisk_categories h3]

/-- When the attach loop succeeds on a candidate, a driver attach call was
issued for it. -/
lemma attachOne_ok_call {s : StepAttachISOs} {env : AttachEnv} {v : String}
    {d : diskToMount} {x : String × List String}
    (h : (attachOne s env v d).result = .ok x) :
    ∃ c, (attachOne s env v d).call = some c := by
  unfold attachOne at h ⊢
  split at h
  · simp_all
  · split at h
    · simp_all
    · split at h
      · simp_all
      · split at h <;> simp_all

/-- When the attach loop runs to completion, its trace extends the
incoming trace with one driver attach invocation per candidate, in
candidate order. -/
lemma attachLoop_none_trace {s : StepAttachISOs} {env : AttachEnv} {v : String} :
    ∀ (disks : List diskToMount) (cmds trace : List (String × List String)),
    (attachLoop s env v disks cmds trace).err = none →
    (attachLoop s env v disks cmds trace).trace.map Prod.fst =
      trace.map Prod.fst ++ disks.map diskToMount.category := by
  intro disks
  induction disks with
  | nil => intro cmds trace _; simp [attachLoop]
  | cons d rest ih =>
    intro cmds trace h
    rw [attachLoop] at h ⊢
    rcases hr : (attachOne s env v d).result with e | ⟨cat, unmount⟩
    · simp only [hr] at h; simp at h
    · obtain ⟨c, hc⟩ := attachOne_ok_call hr
      simp only [hr, hc] at h ⊢
      rw [ih _ _ h]
      simp

/-! ## Claims about the attach step -/

/-- Claim C1: in every run of the ISO-attachment step that continues, the
driver attach command is invoked exactly once per applicable category and
in the fixed relative order boot image, supplemental files, guest tools;
in particular, when all three categories are applicable (boot ISO
declared, cd_path present, guest-additions mode attach), the attach
invocations are exactly boot_iso, then cd_files, then guest_additions. -/
theorem attach_order_spec (s : StepAttachISOs) (env : AttachEnv) (st : StateBag)
    (h : (runAttachISOs s env st).action = .ActionContinue) :
    (runAttachISOs s env st).trace.map Prod.fst = applicableCategories s st
    ∧ (s.AttachBootISO = true → st.cd_path.isSome → s.GuestAdditionsMode = GuestAdditionsModeAttach →
        (runAttachISOs s env st).trace.map Prod.fst =
          ["boot_iso", "cd_files", "guest_additions"]) := by
  have main : (runAttachISOs s env st).trace.map Prod.fst = applicableCategories s st := by
    unfold runAttachISOs at h ⊢
    rcases hb : buildDisksToMount s env st with e | disks
    · simp only [hb] at h
      simp at h
    · simp only [hb] at h ⊢
      by_cases hl : disks.length = 0
      · rw [if_pos hl] at h ⊢
        have hd : disks = [] := List.length_eq_zero.mp hl
        have hcat := buildDisksToMount_categories hb
        rw [hd] at hcat
        simpa using hcat.symm
      · rw [if_neg hl] at h ⊢
        rcases he : (attachLoop s env st.vmId disks [] []).err with _ | e2
        · simp only [he] at h ⊢
          have ht := @attachLoop_none_trace s env st.vmId disks [] [] he
          simpa [buildDisksToMount_categories hb] using ht
        · simp only [he] at h
          simp at h
  refine ⟨main, fun hb hcd hga => ?_⟩
  rw [main]
  simp [applicableCategories, hb, hcd, hga]

def attachEnvOk : AttachEnv :=
  { isAbs := fun _ => true
    abs := fun p => .ok p
    evalSymlinks := fun p => .ok p
    getControllerEnumCode := fun _ => .ok "2"
    driver := fun _ => .ok "AAAAAAAA-BBBB-CCCC-DDDD-EEEEEEEEEEEE" }

def sAllThree : StepAttachISOs :=
  { AttachBootISO := true
    ISOInterface := "ide"
    GuestAdditionsMode := "attach"
    GuestAdditionsInterface := "usb" }

def stAllThree : StateBag :=
  { iso_path := "/tmp/boot.iso"
    cd_path := some "/tmp/cd.iso"
    guest_additions_path := "/tmp/tools.iso"
    vmId := "vm-1" }

theorem attach_order_spec_witness :
    (runAttachISOs sAllThree attachEnvOk stAllThree).action = StepAction.ActionContinue
    ∧ ((runAttachISOs sAllThree attachEnvOk stAllThree).trace.map Prod.fst =
        applicableCategories sAllThree stAllThree
      ∧ (sAllThree.AttachBootISO = true → stAllThree.cd_path.isSome →
          sAllThree.GuestAdditionsMode = GuestAdditionsModeAttach →
          (runAttachISOs sAllThree attachEnvOk stAllThree).trace.map Prod.fst =
            ["boot_iso", "cd_files", "guest_additions"])) :=
  ⟨by decide, attach_order_spec sAllThree attachEnvOk stAllThree (by decide)⟩

/-- Claim C2: for an attachment whose driver call returns without error,
the attach loop halts with the UUID-extraction error recorded when the
output holds no UUID-shaped token (and the run then returns halt with the
error in shared state), and records the reversal command for the category,
keyed by category, when the output does hold one. -/
theorem attach_uuid_spec (s : StepAttachISOs) (env : AttachEnv) (vmId : String)
    (disk : diskToMount) (rest : List diskToMount)
    (cmds trace : List (String × List String)) (resolved code output : String)
    (h1 : env.evalSymlinks disk.isoPath = .ok resolved)
    (h2 : env.getControllerEnumCode (controllerNameFor s disk.category) = .ok code)
    (h3 : env.driver (attachCommand vmId code resolved) = .ok output) :
    (findUuid output = none →
      (attachLoop s env vmId (disk :: rest) cmds trace).err =
        some ("error extracting UUID from output: " ++ output))
    ∧ (∀ u, findUuid output = some u →
        attachLoop s env vmId (disk :: rest) cmds trace =
          attachLoop s env vmId rest
            (putAssoc cmds disk.category ["remove_drive.applescript", vmId, u])
            (trace ++ [(disk.category, attachCommand vmId code resolved)]))
    ∧ (∀ st : StateBag, buildDisksToMount s env st = .ok (disk :: rest) →
        st.vmId = vmId → findUuid output = none →
        (runAttachISOs s env st).action = .ActionHalt
        ∧ (runAttachISOs s env st).st.error =
            some ("error extracting UUID from output: " ++ output)) := by
  have hstep : ∀ hu : Option String, findUuid output = hu →
      attachOne s env vmId disk =
        ⟨some (attachCommand vmId code resolved),
          match hu with
          | some uuid => .ok (disk.category, ["remove_drive.applescript", vmId, uuid])
          | none => .error ("error extracting UUID from output: " ++ output)⟩ := by
    intro hu hhu
    unfold attachOne
    simp only [h1, h2, h3, hhu]
    cases hu <;> rfl
  have habsent : ∀ (cmds0 trace0 : List (String × List String)), findUuid output = none →
      (attachLoop s env vmId (disk :: rest) cmds0 trace0).err =
        some ("error extracting UUID from output: " ++ output) := by
    intro cmds0 trace0 hu
    rw [attachLoop, hstep none hu]
  refine ⟨habsent cmds trace, fun u hu => ?_, fun st hb hvm hu => ?_⟩
  · rw [attachLoop, hstep (some u) hu]
  · unfold runAttachISOs
    simp [hb, hvm, habsent [] [] hu]

def attachEnvNoUuid : AttachEnv :=
  { isAbs := fun _ => true
    abs := fun p => .ok p
    evalSymlinks := fun p => .ok p
    getControllerEnumCode := fun _ => .ok "2"
    driver := fun _ => .ok "no identifier in this output" }

def diskW : diskToMount := { category := "cd_files", isoPath := "/tmp/cd.iso" }

theorem attach_uuid_spec_witness :
    (findUuid "no identifier in this output" = none →
      (attachLoop sAllThree attachEnvNoUuid "vm-1" [diskW] [] []).err =
        some ("error extracting UUID from output: " ++ "no identifier in this output"))
    ∧ (∀ u, findUuid "no identifier in this output" = some u →
        attachLoop sAllThree attachEnvNoUuid "vm-1" [diskW] [] [] =
          attachLoop sAllThree attachEnvNoUuid "vm-1" []
            (putAssoc [] diskW.category ["remove_drive.applescript", "vm-1", u])
            ([] ++ [(diskW.category, attachCommand "vm-1" "2" "/tmp/cd.iso")]))
    ∧ (∀ st : StateBag, buildDisksToMount sAllThree attachEnvNoUuid st = .ok [diskW] →
        st.vmId = "vm-1" → findUuid "no identifier in this output" = none →
        (runAttachISOs sAllThree attachEnvNoUuid st).action = .ActionHalt
        ∧ (runAttachISOs sAllThree attachEnvNoUuid st).st.error =
            some ("error extracting UUID from output: " ++ "no identifier in this output")) :=
  attach_uuid_spec sAllThree attachEnvNoUuid "vm-1" diskW [] [] []
    "/tmp/cd.iso" "2" "no identifier in this output" rfl rfl rfl

def sNoCandidates : StepAttachISOs :=
  { AttachBootISO := false
    ISOInterface := "ide"
    GuestAdditionsMode := "upload"
    GuestAdditionsInterface := "usb" }

def stNoCandidates : StateBag :=
  { iso_path := "/tmp/boot.iso"
    cd_path := none
    guest_additions_path := "/tmp/tools.iso"
    vmId := "vm-1" }

/-- Claim C3, counterexample to the stated iff: a run with zero applicable
candidates continues (so every candidate attachment vacuously succeeded)
without any attach call, yet the `disk_unmount_commands` key is never
written into shared state. -/
theorem attach_publish_iff_cx :
    (runAttachISOs sNoCandidates attachEnvOk stNoCandidates).action = StepAction.ActionContinue
    ∧ (runAttachISOs sNoCandidates attachEnvOk stNoCandidates).trace = []
    ∧ (runAttachISOs sNoCandidates attachEnvOk stNoCandidates).st.disk_unmount_commands = none := by
  decide

/-- Cleanup issues each recorded reversal command regardless of the driver
outcome of the earlier ones, and leaves shared state untouched. -/
lemma cleanupAttachISOs_no_marker {cmds : List (String × List String)}
    {env : AttachEnv} {st : StateBag} (hm : st.detached_isos = false) :
    (cleanupAttachISOs cmds env st).1.map Prod.fst = cmds.map Prod.snd
    ∧ (cleanupAttachISOs cmds env st).2 = st := by
  unfold cleanupAttachISOs
  by_cases hl : cmds.length = 0
  · have : cmds = [] := List.length_eq_zero.mp hl
    subst this
    simp
  · rw [if_neg hl, hm]
    simp [List.map_map, Function.comp]

/-- Claim C3 (amended): the ISO-attachment step writes the
reversal-command table under `disk_unmount_commands` if and only if the
run continued and at least one attachment was performed (never on a
halting run, and not on a run with zero candidates); and when the
`detached_isos` marker is absent, the step cleanup issues a detach
command for every category recorded during the run — in particular, after
a halting run, for every category attached before the halt. -/
theorem attach_publish_iff (s : StepAttachISOs) (env : AttachEnv) (st : StateBag)
    (h0 : st.disk_unmount_commands = none) :
    ((runAttachISOs s env st).st.disk_unmount_commands.isSome ↔
      ((runAttachISOs s env st).action = .ActionContinue
        ∧ (runAttachISOs s env st).trace ≠ []))
    ∧ (st.detached_isos = false →
        ((cleanupAttachISOs (runAttachISOs s env st).cmds env st).1.map Prod.fst =
            (runAttachISOs s env st).cmds.map Prod.snd
          ∧ (cleanupAttachISOs (runAttachISOs s env st).cmds env st).2 = st)) := by
  refine ⟨?_, fun hm => cleanupAttachISOs_no_marker hm⟩
  unfold runAttachISOs
  rcases hb : buildDisksToMount s env st with e | disks
  · simp [h0]
  · dsimp only
    by_cases hl : disks.length = 0
    · simp [hl, h0]
    · rw [if_neg hl]
      rcases he : (attachLoop s env st.vmId disks [] []).err with _ | e2
      · simp only [he]
        have ht := @attachLoop_none_trace s env st.vmId disks [] [] he
        have hd : disks ≠ [] := fun hd => hl (by simp [hd])
        have htne : (attachLoop s env st.vmId disks [] []).trace ≠ [] := by
          intro hz
          rw [hz] at ht
          simp at ht
          exact hd ht
        simp [htne]
      · simp [he, h0]

theorem attach_publish_iff_witness :
    stAllThree.disk_unmount_commands = none
    ∧ (((runAttachISOs sAllThree attachEnvOk stAllThree).st.disk_unmount_commands.isSome ↔
        ((runAttachISOs sAllThree attachEnvOk stAllThree).action = .ActionContinue
          ∧ (runAttachISOs sAllThree attachEnvOk stAllThree).trace ≠ []))
      ∧ (stAllThree.detached_isos = false →
          ((cleanupAttachISOs (runAttachISOs sAllThree attachEnvOk stAllThree).cmds attachEnvOk stAllThree).1.map Prod.fst =
              (runAttachISOs sAllThree attachEnvOk stAllThree).cmds.map Prod.snd
            ∧ (cleanupAttachISOs (runAttachISOs sAllThree attachEnvOk stAllThree).cmds attachEnvOk stAllThree).2 = stAllThree))) :=
  ⟨rfl, attach_publish_iff sAllThree attachEnvOk stAllThree rfl⟩

/-- Claim C4: cleanup of the ISO-attachment step performs no driver call
when no reversal command was recorded, performs no driver call when the
`detached_isos` marker is present, and otherwise issues the detach command
of every recorded category exactly once — every entry is attempted
whatever the driver returns for the others — while never halting or
writing anything (an error in particular) into shared state. -/
theorem attach_cleanup_spec (cmds : List (String × List String))
    (env : AttachEnv) (st : StateBag) :
    (cmds = [] → cleanupAttachISOs cmds env st = ([], st))
    ∧ (st.detached_isos = true → cleanupAttachISOs cmds env st = ([], st))
    ∧ (st.detached_isos = false →
        (cleanupAttachISOs cmds env st).1 = cmds.map (fun p => (p.2, env.driver p.2))
        ∧ (cleanupAttachISOs cmds env st).1.map Prod.fst = cmds.map Prod.snd
        ∧ (cleanupAttachISOs cmds env st).2 = st) := by
  refine ⟨fun hz => ?_, fun hm => ?_, fun hm => ?_⟩
  · subst hz; rfl
  · unfold cleanupAttachISOs
    by_cases hl : cmds.length = 0
    · rw [if_pos hl]
    · rw [if_neg hl, hm]
      simp
  · refine ⟨?_, (cleanupAttachISOs_no_marker hm).1, (cleanupAttachISOs_no_marker hm).2⟩
    unfold cleanupAttachISOs
    by_cases hl : cmds.length = 0
    · rw [if_pos hl]
      have : cmds = [] := List.length_eq_zero.mp hl
      simp [this]
    · rw [if_neg hl, hm]
      simp

def cleanupCmdsW : List (String × List String) :=
  [("boot_iso", ["remove_drive.applescript", "vm-1", "u1"]),
   ("cd_files", ["remove_drive.applescript", "vm-1", "u2"])]

def attachEnvFailingDetach : AttachEnv :=
  { isAbs := fun _ => true
    abs := fun p => .ok p
    evalSymlinks := fun p => .ok p
    getControllerEnumCode := fun _ => .ok "2"
    driver := fun _ => .error "detach failed" }

theorem attach_cleanup_spec_witness :
    (cleanupCmdsW = [] →
      cleanupAttachISOs cleanupCmdsW attachEnvFailingDetach stAllThree = ([], stAllThree))
    ∧ (stAllThree.detached_isos = true →
        cleanupAttachISOs cleanupCmdsW attachEnvFailingDetach stAllThree = ([], stAllThree))
    ∧ (stAllThree.detached_isos = false →
        (cleanupAttachISOs cleanupCmdsW attachEnvFailingDetach stAllThree).1 =
          cleanupCmdsW.map (fun p => (p.2, attachEnvFailingDetach.driver p.2))
        ∧ (cleanupAttachISOs cleanupCmdsW attachEnvFailingDetach stAllThree).1.map Prod.fst =
            cleanupCmdsW.map Prod.snd
        ∧ (cleanupAttachISOs cleanupCmdsW attachEnvFailingDetach stAllThree).2 = stAllThree) :=
  attach_cleanup_spec cleanupCmdsW attachEnvFailingDetach stAllThree

/-! ## Claims about the guest-additions download step -/

/-- Claim C9: with mode disabled, the download step returns continue with
no driver call (no version query, no tools-path query), no fetch, and the
shared state unchanged. -/
theorem download_disabled_spec (s : StepDownloadGuestAdditions)
    (env : DownloadEnv) (st : StateBag)
    (h : s.GuestAdditionsMode = GuestAdditionsModeDisable) :
    runDownloadGuestAdditions s env st =
      ⟨.ActionContinue, st, false, false, none⟩ := by
  unfold runDownloadGuestAdditions
  rw [if_pos h]

def dlDisabled : StepDownloadGuestAdditions :=
  { GuestAdditionsMode := "disabled"
    GuestAdditionsURL := ""
    GuestAdditionsSHA256 := ""
    GuestAdditionsTargetPath := "" }

def dlEnvW : DownloadEnv :=
  { version := .ok "4.6.4"
    guestToolsIsoPath := .ok "/Applications/UTM.app/tools.iso"
    render := fun t _ => .ok t
    fetchRun := fun _ => .ActionContinue }

theorem download_disabled_spec_witness :
    dlDisabled.GuestAdditionsMode = GuestAdditionsModeDisable
    ∧ runDownloadGuestAdditions dlDisabled dlEnvW stNoCandidates =
        ⟨.ActionContinue, stNoCandidates, false, false, none⟩ :=
  ⟨rfl, download_disabled_spec dlDisabled dlEnvW stNoCandidates rfl⟩

/-- The fixed fallback URL built against the vendor host when the driver
default-path query fails. -/
def fallbackUrl : String := "https://getutm.app/downloads/" ++ additionsName

/-- The checksum string the delegated download receives when the URL did
not come from the driver default path: the operator checksum with the
fixed `sha256:` tag when one is supplied, the empty string otherwise. -/
def dlChecksum (sha : String) : String :=
  if sha = "" then "" else "sha256:" ++ sha

/-- The delegated download call for a URL that did not come from the
driver default path. -/
def dlCall (s : StepDownloadGuestAdditions) (url : String) : StepDownloadCall :=
  ⟨dlChecksum s.GuestAdditionsSHA256, "Guest additions", "guest_additions_path",
    s.GuestAdditionsTargetPath, [url], "iso"⟩

/-- The delegated download call for a URL obtained from the driver
default path: checksum type none, empty checksum string. -/
def dlCallNone (s : StepDownloadGuestAdditions) (url : String) : StepDownloadCall :=
  ⟨"", "Guest additions", "guest_additions_path",
    s.GuestAdditionsTargetPath, [url], "iso"⟩

lemma runDownload_nonempty_url {s : StepDownloadGuestAdditions}
    {env : DownloadEnv} {st : StateBag} {v u : String}
    (hm : ¬s.GuestAdditionsMode = GuestAdditionsModeDisable)
    (hv : env.version = .ok v)
    (hr : env.render s.GuestAdditionsURL (remapVersion v) = .ok u)
    (hu : ¬u = "") :
    runDownloadGuestAdditions s env st =
      ⟨env.fetchRun (dlCall s u), st, true, false, some (dlCall s u)⟩ := by
  unfold runDownloadGuestAdditions
  rw [if_neg hm]
  simp only [hv, hr, hu, if_neg hu]
  by_cases hsha : s.GuestAdditionsSHA256 = "" <;>
    simp [hu, hsha, dlCall, dlChecksum]

lemma runDownload_driver_path {s : StepDownloadGuestAdditions}
    {env : DownloadEnv} {st : StateBag} {v p : String}
    (hm : ¬s.GuestAdditionsMode = GuestAdditionsModeDisable)
    (hv : env.version = .ok v)
    (hr : env.render s.GuestAdditionsURL (remapVersion v) = .ok "")
    (hp : env.guestToolsIsoPath = .ok p) (hpz : ¬p = "") :
    runDownloadGuestAdditions s env st =
      ⟨env.fetchRun (dlCallNone s p), st, true, true, some (dlCallNone s p)⟩ := by
  unfold runDownloadGuestAdditions
  rw [if_neg hm]
  simp only [hv, hr, hp]
  simp [hpz, dlCallNone]

lemma runDownload_driver_empty {s : StepDownloadGuestAdditions}
    {env : DownloadEnv} {st : StateBag} {v : String}
    (hm : ¬s.GuestAdditionsMode = GuestAdditionsModeDisable)
    (hv : env.version = .ok v)
    (hr : env.render s.GuestAdditionsURL (remapVersion v) = .ok "")
    (hp : env.guestToolsIsoPath = .ok "") :
    runDownloadGuestAdditions s env st =
      ⟨.ActionHalt,
        { st with
            error := some ("couldn\x27t detect guest additions URL.\nPlease specify `guest_additions_url` manually") },
        true, true, none⟩ := by
  unfold runDownloadGuestAdditions
  rw [if_neg hm]
  simp only [hv, hr, hp]
  simp

lemma runDownload_driver_error {s : StepDownloadGuestAdditions}
    {env : DownloadEnv} {st : StateBag} {v e : String}
    (hm : ¬s.GuestAdditionsMode = GuestAdditionsModeDisable)
    (hv : env.version = .ok v)
    (hr : env.render s.GuestAdditionsURL (remapVersion v) = .ok "")
    (hp : env.guestToolsIsoPath = .error e) :
    runDownloadGuestAdditions s env st =
      ⟨env.fetchRun (dlCall s fallbackUrl), st, true, true,
        some (dlCall s fallbackUrl)⟩ := by
  unfold runDownloadGuestAdditions
  rw [if_neg hm]
  simp only [hv, hr, hp]
  have hnz : ¬(("https://getutm.app/downloads/" ++ additionsName) = "") := by decide
  by_cases hsha : s.GuestAdditionsSHA256 = "" <;>
    simp [hnz, hsha, dlCall, dlChecksum, fallbackUrl]

/-- Claim C5: when the rendered URL template is empty, the step queries
the driver for a default guest-tools path; when that query fails the URL
becomes the fixed vendor fallback; and the step halts with the
could-not-detect error directing the operator to supply the URL manually
exactly when the URL is still
empty after the chain, which happens precisely when the driver query
succeeded while returning an empty path. -/
theorem download_url_fallback_spec (s : StepDownloadGuestAdditions)
    (env : DownloadEnv) (st : StateBag) (v : String)
    (hm : ¬s.GuestAdditionsMode = GuestAdditionsModeDisable)
    (hv : env.version = .ok v)
    (hr : env.render s.GuestAdditionsURL (remapVersion v) = .ok "") :
    (runDownloadGuestAdditions s env st).toolsPathQueried = true
    ∧ (∀ e, env.guestToolsIsoPath = .error e →
        (runDownloadGuestAdditions s env st).fetch.map StepDownloadCall.Url =
          some [fallbackUrl])
    ∧ (((runDownloadGuestAdditions s env st).action = .ActionHalt
        ∧ (runDownloadGuestAdditions s env st).st.error =
            some ("couldn\x27t detect guest additions URL.\nPlease specify `guest_additions_url` manually")
        ∧ (runDownloadGuestAdditions s env st).fetch = none)
       ↔ env.guestToolsIsoPath = .ok "") := by
  rcases hp : env.guestToolsIsoPath with e | p
  · rw [runDownload_driver_error hm hv hr hp]
    refine ⟨rfl, fun e2 _ => by simp [dlCall], ?_⟩
    constructor
    · intro hhalt
      exact absurd hhalt.2.2 (by simp)
    · intro hok
      simp at hok
  · by_cases hpz : p = ""
    · subst hpz
      rw [runDownload_driver_empty hm hv hr hp]
      refine ⟨rfl, fun e2 he2 => by simp at he2, ?_⟩
      constructor
      · intro _; rfl
      · intro _
        exact ⟨rfl, rfl, rfl⟩
    · rw [runDownload_driver_path hm hv hr hp hpz]
      refine ⟨rfl, fun e2 he2 => by simp at he2, ?_⟩
      constructor
      · intro hhalt
        exact absurd hhalt.2.2 (by simp)
      · intro hok
        simp at hok
        exact absurd hok hpz

def dlEmptyUrl : StepDownloadGuestAdditions :=
  { GuestAdditionsMode := "attach"
    GuestAdditionsURL := ""
    GuestAdditionsSHA256 := ""
    GuestAdditionsTargetPath := "" }

def dlEnvEmptyPath : DownloadEnv :=
  { version := .ok "4.6.4"
    guestToolsIsoPath := .ok ""
    render := fun t _ => .ok t
    fetchRun := fun _ => .ActionContinue }

theorem download_url_fallback_spec_witness :
    (runDownloadGuestAdditions dlEmptyUrl dlEnvEmptyPath stNoCandidates).toolsPathQueried = true
    ∧ (∀ e, dlEnvEmptyPath.guestToolsIsoPath = .error e →
        (runDownloadGuestAdditions dlEmptyUrl dlEnvEmptyPath stNoCandidates).fetch.map StepDownloadCall.Url =
          some [fallbackUrl])
    ∧ (((runDownloadGuestAdditions dlEmptyUrl dlEnvEmptyPath stNoCandidates).action = .ActionHalt
        ∧ (runDownloadGuestAdditions dlEmptyUrl dlEnvEmptyPath stNoCandidates).st.error =
            some ("couldn\x27t detect guest additions URL.\nPlease specify `guest_additions_url` manually")
        ∧ (runDownloadGuestAdditions dlEmptyUrl dlEnvEmptyPath stNoCandidates).fetch = none)
       ↔ dlEnvEmptyPath.guestToolsIsoPath = .ok "") :=
  download_url_fallback_spec dlEmptyUrl dlEnvEmptyPath stNoCandidates "4.6.4"
    (by decide) rfl rfl

/-- Claim C6: checksum policy of the download step.  When the URL comes
from a successful driver default-path resolution the fetch carries no
checksum (empty checksum string, type none) even when the operator
supplied one; otherwise a supplied operator checksum reaches the fetch
with the fixed `sha256:` tag; and with no supplied checksum the fetch
carries none. -/
theorem download_checksum_spec (s : StepDownloadGuestAdditions)
    (env : DownloadEnv) (st : StateBag) (v u : String)
    (hm : ¬s.GuestAdditionsMode = GuestAdditionsModeDisable)
    (hv : env.version = .ok v)
    (hr : env.render s.GuestAdditionsURL (remapVersion v) = .ok u) :
    (u = "" → ∀ p, env.guestToolsIsoPath = .ok p → ¬p = "" →
      (runDownloadGuestAdditions s env st).fetch.map StepDownloadCall.Checksum = some "")
    ∧ (¬u = "" → ¬s.GuestAdditionsSHA256 = "" →
        (runDownloadGuestAdditions s env st).fetch.map StepDownloadCall.Checksum =
          some ("sha256:" ++ s.GuestAdditionsSHA256))
    ∧ (u = "" → ∀ e, env.guestToolsIsoPath = .error e → ¬s.GuestAdditionsSHA256 = "" →
        (runDownloadGuestAdditions s env st).fetch.map StepDownloadCall.Checksum =
          some ("sha256:" ++ s.GuestAdditionsSHA256))
    ∧ (s.GuestAdditionsSHA256 = "" →
        ∀ call, (runDownloadGuestAdditions s env st).fetch = some call →
          call.Checksum = "") := by
  refine ⟨fun hu p hp hpz => ?_, fun hu hsha => ?_, fun hu e hp hsha => ?_, fun hsha call hcall => ?_⟩
  · subst hu
    rw [runDownload_driver_path hm hv hr hp hpz]
    simp [dlCallNone]
  · rw [runDownload_nonempty_url hm hv hr hu]
    simp [dlCall, dlChecksum, hsha]
  · subst hu
    rw [runDownload_driver_error hm hv hr hp]
    simp [dlCall, dlChecksum, hsha]
  · by_cases hu : u = ""
    · subst hu
      rcases hp : env.guestToolsIsoPath with e | p
      · rw [runDownload_driver_error hm hv hr hp] at hcall
        simp at hcall
        rw [← hcall]
        simp [dlCall, dlChecksum, hsha]
      · by_cases hpz : p = ""
        · subst hpz
          rw [runDownload_driver_empty hm hv hr hp] at hcall
          simp at hcall
        · rw [runDownload_driver_path hm hv hr hp hpz] at hcall
          simp at hcall
          rw [← hcall]
          simp [dlCallNone]
    · rw [runDownload_nonempty_url hm hv hr hu] at hcall
      simp at hcall
      rw [← hcall]
      simp [dlCall, dlChecksum, hsha]

def dlShaUrl : StepDownloadGuestAdditions :=
  { GuestAdditionsMode := "attach"
    GuestAdditionsURL := "https://example.org/tools.iso"
    GuestAdditionsSHA256 := "abc123"
    GuestAdditionsTargetPath := "" }

def dlEnvRenderId : DownloadEnv :=
  { version := .ok "4.6.4"
    guestToolsIsoPath := .ok "/Applications/UTM.app/tools.iso"
    render := fun t _ => .ok t
    fetchRun := fun _ => .ActionContinue }

theorem download_checksum_spec_witness :
    (("https://example.org/tools.iso" : String) = "" →
      ∀ p, dlEnvRenderId.guestToolsIsoPath = .ok p → ¬p = "" →
      (runDownloadGuestAdditions dlShaUrl dlEnvRenderId stNoCandidates).fetch.map StepDownloadCall.Checksum = some "")
    ∧ (¬("https://example.org/tools.iso" : String) = "" → ¬dlShaUrl.GuestAdditionsSHA256 = "" →
        (runDownloadGuestAdditions dlShaUrl dlEnvRenderId stNoCandidates).fetch.map StepDownloadCall.Checksum =
          some ("sha256:" ++ dlShaUrl.GuestAdditionsSHA256))
    ∧ (("https://example.org/tools.iso" : String) = "" →
        ∀ e, dlEnvRenderId.guestToolsIsoPath = .error e → ¬dlShaUrl.GuestAdditionsSHA256 = "" →
        (runDownloadGuestAdditions dlShaUrl dlEnvRenderId stNoCandidates).fetch.map StepDownloadCall.Checksum =
          some ("sha256:" ++ dlShaUrl.GuestAdditionsSHA256))
    ∧ (dlShaUrl.GuestAdditionsSHA256 = "" →
        ∀ call, (runDownloadGuestAdditions dlShaUrl dlEnvRenderId stNoCandidates).fetch = some call →
          call.Checksum = "") :=
  download_checksum_spec dlShaUrl dlEnvRenderId stNoCandidates "4.6.4"
    "https://example.org/tools.iso" (by decide) rfl rfl

/-! ## Claims about the QEMU-argument configuration step -/

/-- Claim C7: on a non-empty argument-group list the step issues exactly
one driver call, holding the fixed command name, the VM identifier,
`--args`, and one space-joined string per inner group in the original
order; and when the driver call succeeds, the same joined list is
published in state under `userQemuArgs` and the step continues without
touching the error key. -/
theorem qemu_args_spec (s : StepConfigureQemuArgs) (env : QemuEnv) (st : StateBag)
    (h : ¬s.QemuArgs = []) :
    (runConfigureQemuArgs s env st).trace =
      [["add_qemu_additional_args.applescript", st.vmId, "--args"] ++
        s.QemuArgs.map (fun args => String.intercalate " " args)]
    ∧ (∀ out,
        env.driver (["add_qemu_additional_args.applescript", st.vmId, "--args"] ++
          s.QemuArgs.map (fun args => String.intercalate " " args)) = .ok out →
        (runConfigureQemuArgs s env st).action = .ActionContinue
        ∧ (runConfigureQemuArgs s env st).st.userQemuArgs =
            some (s.QemuArgs.map (fun args => String.intercalate " " args))
        ∧ (runConfigureQemuArgs s env st).st.error = st.error) := by
  have hl : ¬s.QemuArgs.length = 0 := fun hz => h (List.length_eq_zero.mp hz)
  unfold runConfigureQemuArgs
  rw [if_neg hl]
  dsimp only
  constructor
  · split <;> rfl
  · intro out hout
    simp only [hout]
    exact ⟨trivial, trivial, trivial⟩

def qemuEnvOk : QemuEnv := { driver := fun _ => .ok "" }

def qemuExample : StepConfigureQemuArgs :=
  { QemuArgs := [["-accel", "hvf"], ["-cpu", "host"]] }

theorem qemu_args_spec_witness :
    (runConfigureQemuArgs qemuExample qemuEnvOk stAllThree).trace =
      [["add_qemu_additional_args.applescript", stAllThree.vmId, "--args"] ++
        qemuExample.QemuArgs.map (fun args => String.intercalate " " args)]
    ∧ (∀ out,
        qemuEnvOk.driver (["add_qemu_additional_args.applescript", stAllThree.vmId, "--args"] ++
          qemuExample.QemuArgs.map (fun args => String.intercalate " " args)) = .ok out →
        (runConfigureQemuArgs qemuExample qemuEnvOk stAllThree).action = .ActionContinue
        ∧ (runConfigureQemuArgs qemuExample qemuEnvOk stAllThree).st.userQemuArgs =
            some (qemuExample.QemuArgs.map (fun args => String.intercalate " " args))
        ∧ (runConfigureQemuArgs qemuExample qemuEnvOk stAllThree).st.error = stAllThree.error) :=
  qemu_args_spec qemuExample qemuEnvOk stAllThree (by decide)

/-- The joined strings of the worked example of the claim: the groups
[[-accel, hvf], [-cpu, host]] are passed to the driver as the two
trailing strings "-accel hvf" and "-cpu host". -/
theorem qemu_args_example :
    (runConfigureQemuArgs qemuExample qemuEnvOk stAllThree).trace =
      [["add_qemu_additional_args.applescript", "vm-1", "--args", "-accel hvf", "-cpu host"]] := by
  decide

/-- Claim C8: on an empty argument-group list the step performs zero
driver calls, writes nothing into shared state, and returns continue. -/
theorem qemu_args_empty_spec (env : QemuEnv) (st : StateBag) :
    runConfigureQemuArgs ⟨[]⟩ env st = ⟨.ActionContinue, st, []⟩ := rfl

/-! ## Claims about `QemuConfig.Prepare` -/

/-- The predicate of the claim: a group is rejected when it is empty or
its space-joined tokens trim to the empty string. -/
def groupEmptyOrBlank (g : List String) : Bool :=
  g.length = 0 || trimSpace (String.intercalate " " g) = ""

lemma trimSpaceList_eq_nil_iff (l : List Char) :
    trimSpaceList l = [] ↔ ∀ c ∈ l, goIsSpace c := by
  unfold trimSpaceList
  rw [List.reverse_eq_nil_iff, List.dropWhile_eq_nil_iff]
  constructor
  · intro h x hx
    by_cases hpx : goIsSpace x
    · exact hpx
    · have hx2 : x ∈ l.takeWhile goIsSpace ++ l.dropWhile goIsSpace := by
        rw [List.takeWhile_append_dropWhile]; exact hx
      rcases List.mem_append.mp hx2 with h1 | h2
      · exact List.mem_takeWhile_imp h1
      · exact h x (List.mem_reverse.mpr h2)
  · intro h x hx
    exact h x ((List.dropWhile_sublist goIsSpace).subset (List.mem_reverse.mp hx))

lemma trimSpace_eq_empty_iff (s : String) :
    trimSpace s = "" ↔ ∀ c ∈ s.data, goIsSpace c := by
  rw [← trimSpaceList_eq_nil_iff]
  unfold trimSpace
  constructor
  · intro h
    have := congrArg String.data h
    simpa using this
  · intro h
    rw [h]

lemma prepareAux_length (l : List (List String)) :
    ∀ i, (prepareAux i l).length = l.countP groupEmptyOrBlank := by
  induction l with
  | nil => intro i; rfl
  | cons g rest ih =>
    intro i
    rw [prepareAux, List.countP_cons]
    by_cases h1 : g.length = 0
    · rw [if_pos h1]
      simp [groupEmptyOrBlank, h1, ih]
    · rw [if_neg h1]
      by_cases h2 : trimSpace (String.intercalate " " g) = ""
      · rw [if_pos h2]
        simp [groupEmptyOrBlank, h1, h2, ih]
      · rw [if_neg h2]
        simp [groupEmptyOrBlank, h1, h2, ih]

lemma prepareAux_eq_nil_iff (l : List (List String)) :
    ∀ i, (prepareAux i l = [] ↔
      ∀ g ∈ l, ¬g.length = 0 ∧ ¬trimSpace (String.intercalate " " g) = "") := by
  induction l with
  | nil => intro i; simp [prepareAux]
  | cons g rest ih =>
    intro i
    rw [prepareAux]
    by_cases h1 : g.length = 0
    · rw [if_pos h1]
      have hg : g = [] := List.length_eq_zero.mp h1
      simp [hg]
    · rw [if_neg h1]
      have hg : ¬g = [] := fun hz => h1 (by simp [hz])
      by_cases h2 : trimSpace (String.intercalate " " g) = ""
      · rw [if_pos h2]
        simp [h2]
      · rw [if_neg h2]
        rw [ih (i + 1)]
        simp [hg, h2]

/-- Claim C10: `QemuConfig.Prepare` returns exactly one error per group
that is empty or whose space-joined tokens trim to the empty string; it
returns no error exactly when every group is non-empty and joins to a
string holding at least one non-white-space character; and an empty outer
list yields no errors. -/
theorem qemu_config_prepare_spec (c : QemuConfig) :
    (QemuConfig.Prepare c).length = c.QemuArgs.countP groupEmptyOrBlank
    ∧ (QemuConfig.Prepare c = [] ↔
        ∀ g ∈ c.QemuArgs, ¬g = [] ∧ ∃ ch ∈ (String.intercalate " " g).data, ¬goIsSpace ch)
    ∧ QemuConfig.Prepare ⟨[]⟩ = [] := by
  refine ⟨prepareAux_length c.QemuArgs 0, ?_, rfl⟩
  rw [QemuConfig.Prepare, prepareAux_eq_nil_iff c.QemuArgs 0]
  constructor
  · intro h g hg
    obtain ⟨h1, h2⟩ := h g hg
    refine ⟨fun hz => h1 (by simp [hz]), ?_⟩
    rw [trimSpace_eq_empty_iff] at h2
    by_contra hall
    push_neg at hall
    exact h2 (fun ch hch => by
      have := hall ch hch
      simpa using this)
  · intro h g hg
    obtain ⟨h1, h2⟩ := h g hg
    refine ⟨fun hz => h1 (List.length_eq_zero.mp hz), ?_⟩
    rw [trimSpace_eq_empty_iff]
    intro hall
    obtain ⟨ch, hch, hns⟩ := h2
    exact hns (hall ch hch)

theorem qemu_config_prepare_spec_witness :
    (QemuConfig.Prepare ⟨[["-accel", "hvf"], [], [" ", "  "]]⟩).length =
      ([["-accel", "hvf"], [], [" ", "  "]] : List (List String)).countP groupEmptyOrBlank
    ∧ (QemuConfig.Prepare ⟨[["-accel", "hvf"], [], [" ", "  "]]⟩ = [] ↔
        ∀ g ∈ ([["-accel", "hvf"], [], [" ", "  "]] : List (List String)),
          ¬g = [] ∧ ∃ ch ∈ (String.intercalate " " g).data, ¬goIsSpace ch)
    ∧ QemuConfig.Prepare ⟨[]⟩ = [] :=
  qemu_config_prepare_spec ⟨[["-accel", "hvf"], [], [" ", "  "]]⟩

end PackerUtm
